import Mathlib

set_option maxRecDepth 8000

/-!
# Verification of the fast-modbus bus scanner (`scripts/scanner.py`)

A shallow embedding of the protocol engine of the scanner: the CRC16/MODBUS
checksum, command construction, response denoising, response classification,
the device-record parser with its reporter state (sequence counter and
one-time table header), and the per-baud-rate sweep of `main`.

Bytes are modelled as `Nat` values; Python byte sequences become `List Nat`.
Fallible list indexing (Python `IndexError`) is modelled with `Option`:
a `none` result of a parsing function stands for an uncaught runtime error.
Printed output relevant to the protocol (table header, device rows, and the
per-class diagnostic lines) is modelled as a list of events.
-/

namespace Scanner

/-- `BROADCAST_ADDRESS = 0xFD` -/
def BROADCAST_ADDRESS : Nat := 0xFD

/-- `EXTENDED_FUNCTION_CODE = 0x46` -/
def EXTENDED_FUNCTION_CODE : Nat := 0x46

/-- `START_SCAN_SUBCOMMAND = 0x01` -/
def START_SCAN_SUBCOMMAND : Nat := 0x01

/-- `CONTINUE_SCAN_SUBCOMMAND = 0x02` -/
def CONTINUE_SCAN_SUBCOMMAND : Nat := 0x02

/-- `END_SCAN_SUBCOMMAND = 0x04` -/
def END_SCAN_SUBCOMMAND : Nat := 0x04

/-- `RESPONSE_SUBCOMMAND = 0x03` -/
def RESPONSE_SUBCOMMAND : Nat := 0x03

/-- `BAUD_RATES = [115200, 57600, 38400, 19200, 9600, 4800, 2400, 1200]` -/
def BAUD_RATES : List Nat := [115200, 57600, 38400, 19200, 9600, 4800, 2400, 1200]

/-- One round of the inner loop of `calculate_crc`:
`if (crc & 1) != 0: crc >>= 1; crc ^= 0xA001 else: crc >>= 1`. -/
def crc_round (crc : Nat) : Nat :=
  if crc % 2 = 1 then (crc / 2) ^^^ 0xA001 else crc / 2

/-- `n` iterations of `crc_round` (the source runs the round `for _ in range(8)`). -/
def crc_rounds : Nat → Nat → Nat
  | 0, crc => crc
  | n + 1, crc => crc_rounds n (crc_round crc)

/-- `calculate_crc(data)`: CRC accumulator starts at `0xFFFF`; each byte is
XORed in and followed by 8 rounds. -/
def calculate_crc (data : List Nat) : Nat :=
  data.foldl (fun crc pos => crc_rounds 8 (crc ^^^ pos)) 0xFFFF

/-- Python `int.from_bytes(bs, 'little')`. -/
def int_from_bytes_le (bs : List Nat) : Nat :=
  bs.foldr (fun b acc => b + 256 * acc) 0

/-- Python `int.from_bytes(bs, 'big')`. -/
def int_from_bytes_be (bs : List Nat) : Nat :=
  bs.foldl (fun acc b => 256 * acc + b) 0

/-- `create_command(broadcast, function_code, subcommand)`: the three header
bytes followed by `calculate_crc` of them in little-endian order
(`crc.to_bytes(2, 'little')`). -/
def create_command (broadcast function_code subcommand : Nat) : List Nat :=
  let command := [broadcast, function_code, subcommand]
  let crc := calculate_crc command
  command ++ [crc % 256, crc / 256]

/-- The filtering step of `send_command`:
`bytes(b for b in response if b != 0xFF)`. -/
def denoise (response : List Nat) : List Nat :=
  response.filter (fun b => b ≠ 0xFF)

/-- `bytes_to_hex_array(byte_array)`: `byte_array[:-2]`.  The source formats
each byte as a hex string and the device-record parser converts the strings
back with `int(s, 16)`; since that round-trip is the identity on byte values
we keep the numeric values. -/
def bytes_to_hex_array (byte_array : List Nat) : List Nat :=
  byte_array.dropLast.dropLast

/-- `calculate_response_crc(response)`: `calculate_crc(response[:-2])`. -/
def calculate_response_crc (response : List Nat) : Nat :=
  calculate_crc response.dropLast.dropLast

/-- One iteration of the spec's checksum loop, written from the spec's words:
"if the low bit of the accumulator is set, shift right by one and XOR with
0xA001; otherwise shift right by one without XOR". -/
def checksum_spec_iter (acc : Nat) : Nat :=
  if Nat.testBit acc 0 then (acc >>> 1) ^^^ 0xA001 else acc >>> 1

/-- The checksum algorithm as §4.1 of the spec words it: initialize the
accumulator to 0xFFFF; for each input byte, XOR it into the accumulator and
perform 8 iterations of `checksum_spec_iter`; return the final accumulator.
This definition follows the spec's words and is compared against
`calculate_crc`, which follows the source. -/
def checksum_spec_go : Nat → List Nat → Nat
  | acc, [] => acc
  | acc, b :: rest => checksum_spec_go (checksum_spec_iter^[8] (acc ^^^ b)) rest

/-- Spec-side checksum function (see `checksum_spec_go`). -/
def checksum_spec (data : List Nat) : Nat :=
  checksum_spec_go 0xFFFF data

/-- The declared checksum of a response: its last two bytes, little-endian
(`int.from_bytes(response[-2:], 'little')` in `process_response`). -/
def received_checksum (response : List Nat) : Nat :=
  int_from_bytes_le (response.drop (response.length - 2))

/-- A byte sequence with no `0xFF` byte: every element is a byte value other
than the transport's idle-fill value.  This is the shape of every output of
`denoise` applied to real port reads, i.e. of every response
`process_response` sees in a run. -/
def no_ff_bytes (r : List Nat) : Prop :=
  ∀ b ∈ r, b < 256 ∧ b ≠ 0xFF

/-- Protocol-relevant console output of one exchange, one constructor per
`print` in the source:
* `scanDone` — "Сканирование завершено."
* `crcError` — checksum-mismatch diagnostic together with the hex dump
  `bytes_to_hex_array(response)` it prints;
* `unrecognized` — "Получен некорректный ответ, игнорируем его.";
* `deviceDump` — debug dump "Ответ устройства: ..." (only with `--debug`);
* `badSubcommand` — "Некорректный ответ, игнорируем его." in the parser;
* `badSize` — "Неверный размер ответа...";
* `header` — the two table-header lines;
* `row` — one table row `| seq | serial | address |`. -/
inductive OutEvent
  | scanDone
  | crcError (payload : List Nat)
  | unrecognized
  | deviceDump (payload : List Nat)
  | badSubcommand
  | badSize
  | header
  | row (seq serial addr : Nat)
  deriving DecidableEq, Repr

/-- `parse_and_print_response(hex_array)` with the process-global counter
`device_counter=[0]` made explicit: takes the counter value before the call
and returns the emitted output events and the counter value after.  `none`
models the `IndexError` Python raises on `hex_array[2]` when `hex_array` has
fewer than 3 elements. -/
def parse_and_print_response (hex_array : List Nat) (device_counter : Nat) :
    Option (List OutEvent × Nat) :=
  match hex_array[2]? with
  | none => none
  | some b2 =>
    if b2 ≠ RESPONSE_SUBCOMMAND then
      some ([OutEvent.badSubcommand], device_counter)
    else if hex_array.length ≠ 8 then
      some ([OutEvent.badSize], device_counter)
    else
      let serial_number := int_from_bytes_be ((hex_array.drop 3).take 4)
      let modbus_address := hex_array.getD 7 0
      let counter := device_counter + 1
      some ((if counter = 1 then [OutEvent.header] else []) ++
            [OutEvent.row counter serial_number modbus_address], counter)

/-- `process_response(response, debug)`, with the reporter counter made
explicit.  Returns `(stop, events, counter)`: `stop` is the boolean the
source returns (`True` stops the scan loop).  The source's short-circuit
`and` chain over `response[0]`, `response[1]`, `response[2]` is modelled by
nested fallible lookups; `none` models an uncaught `IndexError`. -/
def process_response (response : List Nat) (device_counter : Nat)
    (debug : Bool := false) : Option (Bool × List OutEvent × Nat) :=
  if response.length = 0 then
    some (true, [OutEvent.scanDone], device_counter)
  else
    let received_crc := received_checksum response
    let calculated_crc := calculate_response_crc response
    if received_crc ≠ calculated_crc then
      some (false, [OutEvent.crcError (bytes_to_hex_array response)], device_counter)
    else
      match response[0]? with
      | none => none
      | some b0 =>
        if b0 ≠ BROADCAST_ADDRESS then
          some (false, [OutEvent.unrecognized], device_counter)
        else
          match response[1]? with
          | none => none
          | some b1 =>
            if b1 ≠ EXTENDED_FUNCTION_CODE then
              some (false, [OutEvent.unrecognized], device_counter)
            else
              match response[2]? with
              | none => none
              | some b2 =>
                if b2 = END_SCAN_SUBCOMMAND then
                  some (true, [OutEvent.scanDone], device_counter)
                else if b2 = RESPONSE_SUBCOMMAND then
                  let hex_array := bytes_to_hex_array response
                  match parse_and_print_response hex_array device_counter with
                  | none => none
                  | some (evs, counter) =>
                    some (false,
                      (if debug then [OutEvent.deviceDump hex_array] else []) ++ evs,
                      counter)
                else
                  some (false, [OutEvent.unrecognized], device_counter)

/-- The scan loop of `main` for one opened port.  The transport is modelled
by the list of raw reads the port will deliver: the first element answers the
start-scan command, the following ones answer the successive continue-scan
commands, and an exhausted list models a silent bus (`ser.read` returns
`b''`, which `process_response` classifies as scan-complete and stops the
loop).  Each read is filtered by `send_command`'s denoise step before being
processed.  `none` models an uncaught exception escaping the loop. -/
def run_session (reads : List (List Nat)) (device_counter : Nat)
    (debug : Bool := false) : Option (List OutEvent × Nat) :=
  match reads with
  | [] =>
    match process_response (denoise []) device_counter debug with
    | none => none
    | some (_, evs, counter) => some (evs, counter)
  | raw :: rest =>
    match process_response (denoise raw) device_counter debug with
    | none => none
    | some (stop, evs, counter) =>
      if stop then some (evs, counter)
      else
        match run_session rest counter debug with
        | none => none
        | some (evs2, counter2) => some (evs ++ evs2, counter2)

/-- The environment `main` meets at one baud rate: whether
`serial.Serial(SERIAL_PORT, baud_rate, timeout=1)` succeeds, and the raw
reads the port delivers if it does. -/
structure BaudEnv where
  openOk : Bool
  reads : List (List Nat)

/-- Console output of `main` beyond the per-exchange events:
`tryBaud` — "Сканирую шину на скорости ... бод";
`openError` — "Ошибка открытия порта с скоростью ... бод";
`out` — an event from `process_response`. -/
inductive SweepEvent
  | tryBaud (rate : Nat)
  | openError (rate : Nat)
  | out (e : OutEvent)
  deriving DecidableEq, Repr

/-- One iteration of `main`'s `for baud_rate in BAUD_RATES` loop: announce
the rate; if the port cannot be opened, report the failure and move on
(`except serial.SerialException`); otherwise run the scan session. -/
def scan_baud (env : BaudEnv) (rate : Nat) (device_counter : Nat)
    (debug : Bool := false) : Option (List SweepEvent × Nat) :=
  if env.openOk then
    match run_session env.reads device_counter debug with
    | none => none
    | some (evs, counter) =>
      some (SweepEvent.tryBaud rate :: evs.map SweepEvent.out, counter)
  else
    some ([SweepEvent.tryBaud rate, SweepEvent.openError rate], device_counter)

/-- The baud-rate sweep of `main` over a list of rates, threading the
process-global reporter counter.  `envs` assigns to each baud rate the
transport behaviour at that rate. -/
def main_sweep (envs : Nat → BaudEnv) (debug : Bool) :
    Nat → List Nat → Option (List SweepEvent × Nat)
  | counter, [] => some ([], counter)
  | counter, rate :: rest =>
    match scan_baud (envs rate) rate counter debug with
    | none => none
    | some (evs, counter') =>
      match main_sweep envs debug counter' rest with
      | none => none
      | some (evs2, counter2) => some (evs ++ evs2, counter2)

/-- A concrete transport environment for illustration: the port opens only
at 9600 baud, and a single device (serial 300, bus address 5) answers
there. -/
def demo_envs : Nat → BaudEnv := fun rate =>
  if rate = 9600 then
    BaudEnv.mk true [[0xFD, 0x46, 0x03, 0x00, 0x00, 0x01, 0x2C, 0x05, 0x24, 0x22]]
  else BaudEnv.mk false []

/-- The sweep trace `main_sweep demo_envs false 0 BAUD_RATES` produces. -/
def demo_trace : List SweepEvent :=
  [SweepEvent.tryBaud 115200, SweepEvent.openError 115200,
   SweepEvent.tryBaud 57600, SweepEvent.openError 57600,
   SweepEvent.tryBaud 38400, SweepEvent.openError 38400,
   SweepEvent.tryBaud 19200, SweepEvent.openError 19200,
   SweepEvent.tryBaud 9600,
   SweepEvent.out OutEvent.header,
   SweepEvent.out (OutEvent.row 1 300 5),
   SweepEvent.out OutEvent.scanDone,
   SweepEvent.tryBaud 4800, SweepEvent.openError 4800,
   SweepEvent.tryBaud 2400, SweepEvent.openError 2400,
   SweepEvent.tryBaud 1200, SweepEvent.openError 1200]

/-- The sequence number carried by a table-row event, if any. -/
def seq_of_event : OutEvent → Option Nat
  | OutEvent.row seq _ _ => some seq
  | _ => none

/-- The sequence numbers of the table rows of an output trace, in order. -/
def row_seqs (evs : List OutEvent) : List Nat :=
  evs.filterMap seq_of_event

/-- Whether an output event is the table header. -/
def is_header_event : OutEvent → Bool
  | OutEvent.header => true
  | _ => false

/-- How many times the table header appears in an output trace. -/
def header_count (evs : List OutEvent) : Nat :=
  evs.countP is_header_event

/-- A trace with neither table rows nor a table header (diagnostics only). -/
def clean_events (evs : List OutEvent) : Prop :=
  row_seqs evs = [] ∧ header_count evs = 0

/-- What the reporter state machine guarantees for a trace produced while the
device counter went from `c` to `c'`: the rows carry the consecutive sequence
numbers `c+1, …, c'`; the header appears exactly once if the trace contains
the run's first row (the counter started at 0 and a row was produced) and
never otherwise; and in that case the header immediately precedes the row
numbered 1, with nothing but diagnostics before it and no further header
after it. -/
def ReporterTrace (c : Nat) (evs : List OutEvent) (c' : Nat) : Prop :=
  c ≤ c' ∧
  row_seqs evs = List.range' (c + 1) (c' - c) ∧
  header_count evs = (if c = 0 ∧ 0 < c' then 1 else 0) ∧
  (c = 0 → 0 < c' →
    ∃ pre s a post, evs = pre ++ OutEvent.header :: OutEvent.row 1 s a :: post ∧
      clean_events pre ∧ header_count post = 0)

/-- The per-exchange output events embedded in a sweep trace, in order. -/
def out_events (evs : List SweepEvent) : List OutEvent :=
  evs.filterMap (fun e => match e with | SweepEvent.out oe => some oe | _ => none)

/-- The baud rates announced by a sweep trace, in order. -/
def tried_rates (evs : List SweepEvent) : List Nat :=
  evs.filterMap (fun e => match e with | SweepEvent.tryBaud r => some r | _ => none)

/-- All raw reads a transport environment delivers consist of byte values,
as reads from a real serial port do. -/
def byte_reads (env : BaudEnv) : Prop :=
  ∀ raw ∈ env.reads, ∀ b ∈ raw, b < 256

/-- A frame `process_response` answers with the stop value on: the declared
checksum (last two bytes, little-endian) equals the CRC16 of the preceding
bytes, bytes 0 and 1 are the broadcast address and extended function code,
and byte 2 is the end-scan value. -/
def stop_frame (r : List Nat) : Prop :=
  received_checksum r = calculate_response_crc r ∧
  r[0]? = some BROADCAST_ADDRESS ∧
  r[1]? = some EXTENDED_FUNCTION_CODE ∧
  r[2]? = some END_SCAN_SUBCOMMAND

/-! ## Checksum lemmas -/

lemma crc_round_eq_spec_iter (crc : Nat) : crc_round crc = checksum_spec_iter crc := by
  unfold crc_round checksum_spec_iter
  simp [Nat.testBit_zero, Nat.shiftRight_one]

lemma crc_rounds_eq_iter (n crc : Nat) : crc_rounds n crc = checksum_spec_iter^[n] crc := by
  induction n generalizing crc with
  | zero => rfl
  | succ n ih =>
    rw [crc_rounds, ih, crc_round_eq_spec_iter, Function.iterate_succ_apply]

lemma checksum_spec_go_eq_foldl (data : List Nat) (acc : Nat) :
    checksum_spec_go acc data =
      data.foldl (fun crc pos => crc_rounds 8 (crc ^^^ pos)) acc := by
  induction data generalizing acc with
  | nil => rfl
  | cons b rest ih =>
    rw [checksum_spec_go, List.foldl_cons, ih, crc_rounds_eq_iter]

lemma calculate_crc_eq_spec (data : List Nat) : calculate_crc data = checksum_spec data := by
  rw [calculate_crc, checksum_spec, checksum_spec_go_eq_foldl]

lemma crc_round_lt (crc : Nat) (h : crc < 2 ^ 16) : crc_round crc < 2 ^ 16 := by
  unfold crc_round
  have hdiv : crc / 2 < 2 ^ 16 := lt_of_le_of_lt (Nat.div_le_self crc 2) h
  split
  · exact Nat.xor_lt_two_pow hdiv (by norm_num)
  · exact hdiv

lemma crc_rounds_lt (n crc : Nat) (h : crc < 2 ^ 16) : crc_rounds n crc < 2 ^ 16 := by
  induction n generalizing crc with
  | zero => exact h
  | succ n ih => exact ih _ (crc_round_lt crc h)

lemma calculate_crc_go_lt (data : List Nat) (acc : Nat) (hacc : acc < 2 ^ 16)
    (h : ∀ b ∈ data, b < 256) :
    data.foldl (fun crc pos => crc_rounds 8 (crc ^^^ pos)) acc < 2 ^ 16 := by
  induction data generalizing acc with
  | nil => exact hacc
  | cons b rest ih =>
    rw [List.foldl_cons]
    refine ih ?_ ?_ (fun x hx => h x (List.mem_cons_of_mem b hx))
    exact crc_rounds_lt 8 _
      (Nat.xor_lt_two_pow hacc (lt_trans (h b (List.mem_cons_self b rest)) (by norm_num)))

lemma calculate_crc_lt (data : List Nat) (h : ∀ b ∈ data, b < 256) :
    calculate_crc data < 2 ^ 16 :=
  calculate_crc_go_lt data 0xFFFF (by norm_num) h

/-! ## Checksum-mismatch facts for short frames -/

lemma received_checksum_len1 (a : Nat) : received_checksum [a] = a := by
  simp [received_checksum, int_from_bytes_le]

lemma received_checksum_len2 (a b : Nat) : received_checksum [a, b] = a + 256 * b := by
  simp [received_checksum, int_from_bytes_le]

lemma received_checksum_len3 (a b x : Nat) :
    received_checksum [a, b, x] = b + 256 * x := by
  simp [received_checksum, int_from_bytes_le]

lemma received_checksum_len4 (a b x d : Nat) :
    received_checksum [a, b, x, d] = x + 256 * d := by
  simp [received_checksum, int_from_bytes_le]

lemma crc_mismatch_len1 (a : Nat) (ha : a < 256) :
    received_checksum [a] ≠ calculate_response_crc [a] := by
  rw [received_checksum_len1]
  have : calculate_response_crc [a] = 0xFFFF := rfl
  rw [this]
  omega

lemma crc_mismatch_len2 (a b : Nat) (ha : a < 256) (hne : a ≠ 0xFF) :
    received_checksum [a, b] ≠ calculate_response_crc [a, b] := by
  rw [received_checksum_len2]
  have : calculate_response_crc [a, b] = 0xFFFF := rfl
  rw [this]
  omega

lemma crc_mismatch_len3 (x : Nat) :
    received_checksum [0xFD, 0x46, x] ≠ calculate_response_crc [0xFD, 0x46, x] := by
  rw [received_checksum_len3]
  have : calculate_response_crc [0xFD, 0x46, x] = 49534 := by
    show calculate_crc [0xFD] = 49534
    decide
  rw [this]
  omega

lemma crc_mismatch_len4 (x d : Nat) (hx : x = 0x03 ∨ x = 0x04) :
    received_checksum [0xFD, 0x46, x, d] ≠ calculate_response_crc [0xFD, 0x46, x, d] := by
  rw [received_checksum_len4]
  have : calculate_response_crc [0xFD, 0x46, x, d] = 53952 := by
    show calculate_crc [0xFD, 0x46] = 53952
    decide
  rw [this]
  rcases hx with rfl | rfl <;> omega

/-! ## Branch evaluation lemmas for `process_response` -/

lemma process_response_empty (c : Nat) (dbg : Bool) :
    process_response [] c dbg = some (true, [OutEvent.scanDone], c) := rfl

lemma process_response_crc_mismatch (r : List Nat) (c : Nat) (dbg : Bool)
    (hne : r ≠ []) (hcrc : received_checksum r ≠ calculate_response_crc r) :
    process_response r c dbg =
      some (false, [OutEvent.crcError (bytes_to_hex_array r)], c) := by
  rw [process_response]
  rw [if_neg (by simpa using hne)]
  simp only
  rw [if_pos hcrc]

lemma process_response_bad_b0 (r : List Nat) (c : Nat) (dbg : Bool) (b0 : Nat)
    (hne : r ≠ []) (hcrc : received_checksum r = calculate_response_crc r)
    (h0 : r[0]? = some b0) (hb0 : b0 ≠ BROADCAST_ADDRESS) :
    process_response r c dbg = some (false, [OutEvent.unrecognized], c) := by
  rw [process_response]
  rw [if_neg (by simpa using hne)]
  simp only
  rw [if_neg (by simpa using hcrc), h0]
  simp only
  rw [if_pos hb0]

lemma process_response_bad_b1 (r : List Nat) (c : Nat) (dbg : Bool) (b1 : Nat)
    (hne : r ≠ []) (hcrc : received_checksum r = calculate_response_crc r)
    (h0 : r[0]? = some BROADCAST_ADDRESS) (h1 : r[1]? = some b1)
    (hb1 : b1 ≠ EXTENDED_FUNCTION_CODE) :
    process_response r c dbg = some (false, [OutEvent.unrecognized], c) := by
  rw [process_response]
  rw [if_neg (by simpa using hne)]
  simp only
  rw [if_neg (by simpa using hcrc), h0]
  simp only
  rw [if_neg (by simp), h1]
  simp only
  rw [if_pos hb1]

lemma process_response_end_scan (r : List Nat) (c : Nat) (dbg : Bool)
    (hne : r ≠ []) (hcrc : received_checksum r = calculate_response_crc r)
    (h0 : r[0]? = some BROADCAST_ADDRESS) (h1 : r[1]? = some EXTENDED_FUNCTION_CODE)
    (h2 : r[2]? = some END_SCAN_SUBCOMMAND) :
    process_response r c dbg = some (true, [OutEvent.scanDone], c) := by
  rw [process_response]
  rw [if_neg (by simpa using hne)]
  simp only
  rw [if_neg (by simpa using hcrc), h0]
  simp only
  rw [if_neg (by simp), h1]
  simp only
  rw [if_neg (by simp), h2]
  simp only
  rw [if_pos trivial]

lemma process_response_bad_b2 (r : List Nat) (c : Nat) (dbg : Bool) (b2 : Nat)
    (hne : r ≠ []) (hcrc : received_checksum r = calculate_response_crc r)
    (h0 : r[0]? = some BROADCAST_ADDRESS) (h1 : r[1]? = some EXTENDED_FUNCTION_CODE)
    (h2 : r[2]? = some b2) (hb2a : b2 ≠ RESPONSE_SUBCOMMAND) (hb2b : b2 ≠ END_SCAN_SUBCOMMAND) :
    process_response r c dbg = some (false, [OutEvent.unrecognized], c) := by
  rw [process_response]
  rw [if_neg (by simpa using hne)]
  simp only
  rw [if_neg (by simpa using hcrc), h0]
  simp only
  rw [if_neg (by simp), h1]
  simp only
  rw [if_neg (by simp), h2]
  simp only
  rw [if_neg hb2b, if_neg hb2a]

lemma process_response_device (r : List Nat) (c : Nat) (dbg : Bool)
    (evs : List OutEvent) (c' : Nat)
    (hne : r ≠ []) (hcrc : received_checksum r = calculate_response_crc r)
    (h0 : r[0]? = some BROADCAST_ADDRESS) (h1 : r[1]? = some EXTENDED_FUNCTION_CODE)
    (h2 : r[2]? = some RESPONSE_SUBCOMMAND)
    (hp : parse_and_print_response (bytes_to_hex_array r) c = some (evs, c')) :
    process_response r c dbg =
      some (false, (if dbg then [OutEvent.deviceDump (bytes_to_hex_array r)] else []) ++ evs,
        c') := by
  rw [process_response]
  rw [if_neg (by simpa using hne)]
  simp only
  rw [if_neg (by simpa using hcrc), h0]
  simp only
  rw [if_neg (by simp), h1]
  simp only
  rw [if_neg (by simp), h2]
  simp only
  rw [if_neg (by simp [RESPONSE_SUBCOMMAND, END_SCAN_SUBCOMMAND])]
  rw [if_pos trivial, hp]

/-! ## `parse_and_print_response` lemmas -/

lemma parse_bad_b2 (h : List Nat) (c : Nat) (b2 : Nat)
    (h2 : h[2]? = some b2) (hb2 : b2 ≠ RESPONSE_SUBCOMMAND) :
    parse_and_print_response h c = some ([OutEvent.badSubcommand], c) := by
  rw [parse_and_print_response, h2]
  simp only
  rw [if_pos hb2]

lemma parse_bad_size (h : List Nat) (c : Nat)
    (h2 : h[2]? = some RESPONSE_SUBCOMMAND) (hlen : h.length ≠ 8) :
    parse_and_print_response h c = some ([OutEvent.badSize], c) := by
  rw [parse_and_print_response, h2]
  simp only
  rw [if_neg (by simp), if_pos hlen]

lemma parse_device (b0 b1 s0 s1 s2 s3 addr : Nat) (c : Nat) :
    parse_and_print_response [b0, b1, 0x03, s0, s1, s2, s3, addr] c =
      some ((if c + 1 = 1 then [OutEvent.header] else []) ++
        [OutEvent.row (c + 1) (int_from_bytes_be [s0, s1, s2, s3]) addr], c + 1) := rfl

lemma parse_total (h : List Nat) (c : Nat) (b2 : Nat) (h2 : h[2]? = some b2) :
    ∃ evs c', parse_and_print_response h c = some (evs, c') := by
  by_cases hb : b2 = RESPONSE_SUBCOMMAND
  · subst hb
    by_cases hlen : h.length = 8
    · rw [parse_and_print_response, h2]
      simp only
      rw [if_neg (by simp), if_neg (by simp [hlen])]
      exact ⟨_, _, rfl⟩
    · exact ⟨_, _, parse_bad_size h c h2 hlen⟩
  · exact ⟨_, _, parse_bad_b2 h c b2 h2 hb⟩

/-! ## `bytes_to_hex_array` facts -/

lemma bytes_to_hex_array_eq_take (r : List Nat) :
    bytes_to_hex_array r = r.take (r.length - 2) := by
  rw [bytes_to_hex_array, List.dropLast_eq_take, List.dropLast_eq_take,
    List.length_take, List.take_take]
  congr 1
  omega

lemma bytes_to_hex_array_getElem (r : List Nat) (i : Nat) (h : i + 2 < r.length) :
    (bytes_to_hex_array r)[i]? = r[i]? := by
  rw [bytes_to_hex_array_eq_take, List.getElem?_take, if_pos (by omega)]

lemma bytes_to_hex_array_length (r : List Nat) :
    (bytes_to_hex_array r).length = r.length - 2 := by
  rw [bytes_to_hex_array_eq_take, List.length_take]
  omega

/-! ## Classification of `process_response` on denoised byte inputs -/

lemma process_response_classify (r : List Nat) (c : Nat) (dbg : Bool) (hff : no_ff_bytes r) :
    ((r = [] ∨ stop_frame r) ∧
      process_response r c dbg = some (true, [OutEvent.scanDone], c)) ∨
    (¬(r = [] ∨ stop_frame r) ∧
      ∃ evs c', process_response r c dbg = some (false, evs, c')) := by
  rcases r with _ | ⟨a, _ | ⟨b, _ | ⟨x, _ | ⟨d, rest⟩⟩⟩⟩
  · exact Or.inl ⟨Or.inl rfl, process_response_empty c dbg⟩
  · have ha := hff a (by simp)
    have hm := crc_mismatch_len1 a ha.1
    refine Or.inr ⟨?_, _, _, process_response_crc_mismatch _ c dbg (by simp) hm⟩
    rintro (h | h)
    · simp at h
    · exact hm h.1
  · have ha := hff a (by simp)
    have hm := crc_mismatch_len2 a b ha.1 ha.2
    refine Or.inr ⟨?_, _, _, process_response_crc_mismatch _ c dbg (by simp) hm⟩
    rintro (h | h)
    · simp at h
    · exact hm h.1
  · by_cases hcrc : received_checksum [a, b, x] = calculate_response_crc [a, b, x]
    · by_cases ha : a = BROADCAST_ADDRESS
      · by_cases hb : b = EXTENDED_FUNCTION_CODE
        · subst ha; subst hb
          exact absurd hcrc (crc_mismatch_len3 x)
        · refine Or.inr ⟨?_, _, _,
            process_response_bad_b1 _ c dbg b (by simp) hcrc (by simp [ha]) (by simp) hb⟩
          rintro (h | h)
          · simp at h
          · obtain ⟨-, -, h1, -⟩ := h
            simp at h1
            exact hb h1
      · refine Or.inr ⟨?_, _, _,
          process_response_bad_b0 _ c dbg a (by simp) hcrc (by simp) ha⟩
        rintro (h | h)
        · simp at h
        · obtain ⟨-, h0, -⟩ := h
          simp at h0
          exact ha h0
    · refine Or.inr ⟨?_, _, _, process_response_crc_mismatch _ c dbg (by simp) hcrc⟩
      rintro (h | h)
      · simp at h
      · exact hcrc h.1
  · rcases rest with _ | ⟨e, rest'⟩
    · -- length 4: [a, b, x, d]
      by_cases hcrc : received_checksum [a, b, x, d] = calculate_response_crc [a, b, x, d]
      · by_cases ha : a = BROADCAST_ADDRESS
        · by_cases hb : b = EXTENDED_FUNCTION_CODE
          · subst ha; subst hb
            by_cases hx3 : x = RESPONSE_SUBCOMMAND
            · subst hx3
              exact absurd hcrc (crc_mismatch_len4 _ d (Or.inl rfl))
            · by_cases hx4 : x = END_SCAN_SUBCOMMAND
              · subst hx4
                exact absurd hcrc (crc_mismatch_len4 _ d (Or.inr rfl))
              · refine Or.inr ⟨?_, _, _,
                  process_response_bad_b2 _ c dbg x (by simp) hcrc (by simp) (by simp)
                    (by simp) hx3 hx4⟩
                rintro (h | h)
                · simp at h
                · obtain ⟨-, -, -, h2⟩ := h
                  simp at h2
                  exact hx4 h2
          · refine Or.inr ⟨?_, _, _,
              process_response_bad_b1 _ c dbg b (by simp) hcrc (by simp [ha]) (by simp) hb⟩
            rintro (h | h)
            · simp at h
            · obtain ⟨-, -, h1, -⟩ := h
              simp at h1
              exact hb h1
        · refine Or.inr ⟨?_, _, _,
            process_response_bad_b0 _ c dbg a (by simp) hcrc (by simp) ha⟩
          rintro (h | h)
          · simp at h
          · obtain ⟨-, h0, -⟩ := h
            simp at h0
            exact ha h0
      · refine Or.inr ⟨?_, _, _, process_response_crc_mismatch _ c dbg (by simp) hcrc⟩
        rintro (h | h)
        · simp at h
        · exact hcrc h.1
    · -- length ≥ 5: a :: b :: x :: d :: e :: rest'
      set r : List Nat := a :: b :: x :: d :: e :: rest' with hr
      have hlen : 5 ≤ r.length := by simp only [hr, List.length_cons]; omega
      by_cases hcrc : received_checksum r = calculate_response_crc r
      · by_cases ha : a = BROADCAST_ADDRESS
        · by_cases hb : b = EXTENDED_FUNCTION_CODE
          · by_cases hx4 : x = END_SCAN_SUBCOMMAND
            · refine Or.inl ⟨Or.inr ⟨hcrc, ?_, ?_, ?_⟩, ?_⟩
              · simp [hr, ha]
              · simp [hr, hb]
              · simp [hr, hx4]
              · exact process_response_end_scan r c dbg (by simp [hr]) hcrc
                  (by simp [hr, ha]) (by simp [hr, hb]) (by simp [hr, hx4])
            · by_cases hx3 : x = RESPONSE_SUBCOMMAND
              · have hhex : (bytes_to_hex_array r)[2]? = some RESPONSE_SUBCOMMAND := by
                  rw [bytes_to_hex_array_getElem r 2 (by omega)]
                  simp [hr, hx3]
                obtain ⟨evs, c', hp⟩ := parse_total _ c _ hhex
                refine Or.inr ⟨?_, _, _,
                  process_response_device r c dbg evs c' (by simp [hr]) hcrc
                    (by simp [hr, ha]) (by simp [hr, hb]) (by simp [hr, hx3]) hp⟩
                rintro (h | h)
                · simp [hr] at h
                · obtain ⟨-, -, -, h2⟩ := h
                  simp [hr] at h2
                  rw [h2] at hx3
                  exact absurd hx3 (by decide)
              · refine Or.inr ⟨?_, _, _,
                  process_response_bad_b2 r c dbg x (by simp [hr]) hcrc (by simp [hr, ha])
                    (by simp [hr, hb]) (by simp [hr]) hx3 hx4⟩
                rintro (h | h)
                · simp [hr] at h
                · obtain ⟨-, -, -, h2⟩ := h
                  simp [hr] at h2
                  exact hx4 h2
          · refine Or.inr ⟨?_, _, _,
              process_response_bad_b1 r c dbg b (by simp [hr]) hcrc (by simp [hr, ha])
                (by simp [hr]) hb⟩
            rintro (h | h)
            · simp [hr] at h
            · obtain ⟨-, -, h1, -⟩ := h
              simp [hr] at h1
              exact hb h1
        · refine Or.inr ⟨?_, _, _,
            process_response_bad_b0 r c dbg a (by simp [hr]) hcrc (by simp [hr]) ha⟩
          rintro (h | h)
          · simp [hr] at h
          · obtain ⟨-, h0, -⟩ := h
            simp [hr] at h0
            exact ha h0
      · refine Or.inr ⟨?_, _, _, process_response_crc_mismatch r c dbg (by simp [hr]) hcrc⟩
        rintro (h | h)
        · simp [hr] at h
        · exact hcrc h.1

lemma process_response_some (r : List Nat) (c : Nat) (dbg : Bool) (hff : no_ff_bytes r) :
    ∃ stop evs c', process_response r c dbg = some (stop, evs, c') := by
  rcases process_response_classify r c dbg hff with ⟨-, h⟩ | ⟨-, evs, c', h⟩
  · exact ⟨_, _, _, h⟩
  · exact ⟨_, _, _, h⟩

lemma device_frame_min_len (r : List Nat) (hff : no_ff_bytes r)
    (hcrc : received_checksum r = calculate_response_crc r)
    (h0 : r[0]? = some BROADCAST_ADDRESS) (h1 : r[1]? = some EXTENDED_FUNCTION_CODE)
    (h2 : r[2]? = some RESPONSE_SUBCOMMAND) :
    5 ≤ r.length := by
  rcases r with _ | ⟨a, _ | ⟨b, _ | ⟨x, _ | ⟨d, rest⟩⟩⟩⟩
  · simp at h0
  · have ha := hff a (by simp)
    exact absurd hcrc (crc_mismatch_len1 a ha.1)
  · have ha := hff a (by simp)
    exact absurd hcrc (crc_mismatch_len2 a b ha.1 ha.2)
  · simp at h0 h1
    subst h0; subst h1
    exact absurd hcrc (crc_mismatch_len3 x)
  · rcases rest with _ | ⟨e, rest'⟩
    · simp at h0 h1 h2
      subst h0; subst h1; subst h2
      exact absurd hcrc (crc_mismatch_len4 _ d (Or.inl rfl))
    · simp only [List.length_cons]
      omega

/-! ## Claim theorems: checksum, denoise, command construction -/

/-- C2: for every byte sequence, `calculate_crc` agrees with the
CRC16/MODBUS reference algorithm as the spec words it (`checksum_spec`),
its result is a 16-bit value, the empty sequence yields exactly 0xFFFF, and
it reproduces the standard CRC-16/MODBUS check value 0x4B37 on the bytes of
"123456789".  Determinism is inherent: the embedding is a pure function. -/
theorem crc_matches_modbus_reference (data : List Nat) (h : ∀ b ∈ data, b < 256) :
    calculate_crc data = checksum_spec data ∧
    calculate_crc data < 2 ^ 16 ∧
    calculate_crc [] = 0xFFFF ∧
    calculate_crc [0x31, 0x32, 0x33, 0x34, 0x35, 0x36, 0x37, 0x38, 0x39] = 0x4B37 :=
  ⟨calculate_crc_eq_spec data, calculate_crc_lt data h, rfl, by decide⟩

/-- Witness for C2 at the concrete start-scan header bytes. -/
theorem crc_matches_modbus_reference_witness :
    calculate_crc [0xFD, 0x46, 0x01] = checksum_spec [0xFD, 0x46, 0x01] ∧
    calculate_crc [0xFD, 0x46, 0x01] < 2 ^ 16 ∧
    calculate_crc [] = 0xFFFF ∧
    calculate_crc [0x31, 0x32, 0x33, 0x34, 0x35, 0x36, 0x37, 0x38, 0x39] = 0x4B37 :=
  crc_matches_modbus_reference [0xFD, 0x46, 0x01] (by decide)

/-- C5: the denoise step keeps the bytes in their original relative order
(sublist), its output contains no 0xFF byte, it removes exactly the 0xFF
bytes (the length drops by their count), and on
`[0xFF, 0xFD, 0x46, 0x03, 0xFF]` it yields `[0xFD, 0x46, 0x03]`. -/
theorem denoise_removes_exactly_ff (raw : List Nat) :
    (denoise raw).Sublist raw ∧
    (∀ b ∈ denoise raw, b ≠ 0xFF) ∧
    (denoise raw).length + raw.count 0xFF = raw.length ∧
    denoise [0xFF, 0xFD, 0x46, 0x03, 0xFF] = [0xFD, 0x46, 0x03] := by
  refine ⟨List.filter_sublist raw, ?_, ?_, by decide⟩
  · intro b hb
    rw [denoise] at hb
    exact of_decide_eq_true (List.mem_filter.mp hb).2
  · induction raw with
    | nil => rfl
    | cons a t ih =>
      by_cases ha : a = 0xFF
      · subst ha
        simp only [denoise, List.filter_cons, List.count_cons] at *
        simp only [decide_not] at *
        norm_num
        omega
      · simp only [denoise, List.filter_cons, List.count_cons] at *
        rw [if_pos (by simpa using ha)]
        simp only [List.length_cons]
        have hbeq : (a == 0xFF) = false := beq_eq_false_iff_ne.mpr ha
        rw [hbeq]
        simp only [Bool.false_eq_true, if_false]
        omega

/-- C6: `create_command` produces exactly 5 bytes: the three header bytes in
order, followed by the CRC16 of those three bytes in little-endian order;
the checksum is recomputed from the header at construction time (the caller
cannot supply it). -/
theorem create_command_shape (broadcast function_code subcommand : Nat)
    (hb : broadcast < 256) (hf : function_code < 256) (hs : subcommand < 256) :
    (create_command broadcast function_code subcommand).length = 5 ∧
    (create_command broadcast function_code subcommand).take 3 =
      [broadcast, function_code, subcommand] ∧
    int_from_bytes_le ((create_command broadcast function_code subcommand).drop 3) =
      calculate_crc [broadcast, function_code, subcommand] ∧
    calculate_crc [broadcast, function_code, subcommand] < 2 ^ 16 := by
  refine ⟨rfl, rfl, ?_, ?_⟩
  · show calculate_crc [broadcast, function_code, subcommand] % 256 +
      256 * (calculate_crc [broadcast, function_code, subcommand] / 256 + 256 * 0) =
      calculate_crc [broadcast, function_code, subcommand]
    omega
  · refine calculate_crc_lt _ ?_
    intro b hb'
    simp only [List.mem_cons, List.not_mem_nil, or_false] at hb'
    rcases hb' with rfl | rfl | rfl <;> assumption

/-- Witness for C6 at the concrete start-scan command bytes. -/
theorem create_command_shape_witness :
    (create_command 0xFD 0x46 0x01).length = 5 ∧
    (create_command 0xFD 0x46 0x01).take 3 = [0xFD, 0x46, 0x01] ∧
    int_from_bytes_le ((create_command 0xFD 0x46 0x01).drop 3) =
      calculate_crc [0xFD, 0x46, 0x01] ∧
    calculate_crc [0xFD, 0x46, 0x01] < 2 ^ 16 :=
  create_command_shape 0xFD 0x46 0x01 (by decide) (by decide) (by decide)

/-! ## Claim theorems: response classification -/

/-- C3: on a denoised byte response, `process_response` returns the stop
value exactly when the response is empty (scan complete) or is a frame whose
declared checksum (last two bytes, little-endian) equals the CRC16 of the
preceding bytes, whose bytes 0 and 1 are the broadcast address 0xFD and
extended function code 0x46, and whose byte 2 is the end-scan value 0x04; in
every other case it returns the continue value, so per-exchange errors never
end the session. -/
theorem process_response_stop_iff (r : List Nat) (c : Nat) (dbg : Bool)
    (hff : no_ff_bytes r) :
    (process_response r c dbg = some (true, [OutEvent.scanDone], c) ↔
      r = [] ∨ stop_frame r) ∧
    (¬(r = [] ∨ stop_frame r) →
      ∃ evs c', process_response r c dbg = some (false, evs, c')) := by
  rcases process_response_classify r c dbg hff with ⟨hc, h⟩ | ⟨hc, hex⟩
  · exact ⟨⟨fun _ => hc, fun _ => h⟩, fun hn => absurd hc hn⟩
  · refine ⟨⟨fun hh => ?_, fun hh => absurd hh hc⟩, fun _ => hex⟩
    obtain ⟨evs, c', hfalse⟩ := hex
    rw [hh] at hfalse
    simp at hfalse

/-- Witness for C3 at the concrete end-scan frame
`FD 46 04 D3 93` (checksum 0x93D3 in little-endian order). -/
theorem process_response_stop_iff_witness :
    (process_response [0xFD, 0x46, 0x04, 0xD3, 0x93] 0 false =
        some (true, [OutEvent.scanDone], 0) ↔
      ([0xFD, 0x46, 0x04, 0xD3, 0x93] : List Nat) = [] ∨
        stop_frame [0xFD, 0x46, 0x04, 0xD3, 0x93]) ∧
    (¬(([0xFD, 0x46, 0x04, 0xD3, 0x93] : List Nat) = [] ∨
        stop_frame [0xFD, 0x46, 0x04, 0xD3, 0x93]) →
      ∃ evs c', process_response [0xFD, 0x46, 0x04, 0xD3, 0x93] 0 false =
        some (false, evs, c')) :=
  process_response_stop_iff [0xFD, 0x46, 0x04, 0xD3, 0x93] 0 false (by unfold no_ff_bytes; decide)

/-- C10: on every input byte sequence containing no 0xFF byte (i.e. every
possible post-denoise response), `process_response` is total — it returns a
result and never goes out of range; moreover the declared checksum can never
match the computed one for inputs of length 1 or 2, and no checksum-valid
frame with header 0xFD 0x46 0x03 has fewer than 5 bytes, so the
device-record parser is never invoked on a frame with fewer than 3
pre-checksum bytes. -/
theorem process_response_total_on_denoised (r : List Nat) (c : Nat) (dbg : Bool)
    (hff : no_ff_bytes r) :
    (∃ stop evs c', process_response r c dbg = some (stop, evs, c')) ∧
    (r.length = 1 ∨ r.length = 2 →
      received_checksum r ≠ calculate_response_crc r) ∧
    (received_checksum r = calculate_response_crc r →
      r[0]? = some BROADCAST_ADDRESS → r[1]? = some EXTENDED_FUNCTION_CODE →
      r[2]? = some RESPONSE_SUBCOMMAND → 5 ≤ r.length) := by
  refine ⟨?_, ?_, device_frame_min_len r hff⟩
  · rcases process_response_classify r c dbg hff with ⟨-, h⟩ | ⟨-, evs, c', h⟩
    · exact ⟨_, _, _, h⟩
    · exact ⟨_, _, _, h⟩
  · intro hlen
    rcases r with _ | ⟨a, _ | ⟨b, rest⟩⟩
    · simp at hlen
    · have ha := hff a (by simp)
      exact crc_mismatch_len1 a ha.1
    · have hr : rest = [] := by
        simp only [List.length_cons] at hlen
        rcases hlen with h | h
        · omega
        · exact List.length_eq_zero.mp (by omega)
      subst hr
      have ha := hff a (by simp)
      exact crc_mismatch_len2 a b ha.1 ha.2

/-- Witness for C10 at a concrete denoised response. -/
theorem process_response_total_on_denoised_witness :
    (∃ stop evs c', process_response [0xFD, 0x46, 0x03] 0 false = some (stop, evs, c')) ∧
    (([0xFD, 0x46, 0x03] : List Nat).length = 1 ∨
        ([0xFD, 0x46, 0x03] : List Nat).length = 2 →
      received_checksum [0xFD, 0x46, 0x03] ≠ calculate_response_crc [0xFD, 0x46, 0x03]) ∧
    (received_checksum [0xFD, 0x46, 0x03] = calculate_response_crc [0xFD, 0x46, 0x03] →
      ([0xFD, 0x46, 0x03] : List Nat)[0]? = some BROADCAST_ADDRESS →
      ([0xFD, 0x46, 0x03] : List Nat)[1]? = some EXTENDED_FUNCTION_CODE →
      ([0xFD, 0x46, 0x03] : List Nat)[2]? = some RESPONSE_SUBCOMMAND →
      5 ≤ ([0xFD, 0x46, 0x03] : List Nat).length) :=
  process_response_total_on_denoised [0xFD, 0x46, 0x03] 0 false (by unfold no_ff_bytes; decide)

/-- C4 counterexample: the non-empty denoised response `[0x01]` has length
less than 5, yet `process_response` does not signal any malformed-frame
condition before checksum extraction — it extracts the declared checksum and
reports a checksum mismatch (the `crcError` diagnostic of the source's
"Ошибка контрольной суммы ответа" path). -/
theorem short_frame_counterexample :
    process_response [0x01] 0 false = some (false, [OutEvent.crcError []], 0) := rfl

/-- C4 amended: the code has no minimum-length check.  A non-empty denoised
response shorter than 5 bytes proceeds directly to checksum extraction and
is classified either as a checksum mismatch or as an unrecognized frame —
in both cases signalling continue, never stop. -/
theorem short_frames_continue (r : List Nat) (c : Nat) (dbg : Bool)
    (hff : no_ff_bytes r) (hne : r ≠ []) (hlen : r.length < 5) :
    process_response r c dbg =
        some (false, [OutEvent.crcError (bytes_to_hex_array r)], c) ∨
    process_response r c dbg = some (false, [OutEvent.unrecognized], c) := by
  rcases r with _ | ⟨a, _ | ⟨b, _ | ⟨x, _ | ⟨d, rest⟩⟩⟩⟩
  · exact absurd rfl hne
  · have ha := hff a (by simp)
    exact Or.inl (process_response_crc_mismatch _ c dbg (by simp)
      (crc_mismatch_len1 a ha.1))
  · have ha := hff a (by simp)
    exact Or.inl (process_response_crc_mismatch _ c dbg (by simp)
      (crc_mismatch_len2 a b ha.1 ha.2))
  · by_cases hcrc : received_checksum [a, b, x] = calculate_response_crc [a, b, x]
    · by_cases ha : a = BROADCAST_ADDRESS
      · by_cases hb : b = EXTENDED_FUNCTION_CODE
        · subst ha; subst hb
          exact absurd hcrc (crc_mismatch_len3 x)
        · exact Or.inr (process_response_bad_b1 _ c dbg b (by simp) hcrc
            (by simp [ha]) (by simp) hb)
      · exact Or.inr (process_response_bad_b0 _ c dbg a (by simp) hcrc (by simp) ha)
    · exact Or.inl (process_response_crc_mismatch _ c dbg (by simp) hcrc)
  · rcases rest with _ | ⟨e, rest'⟩
    · by_cases hcrc : received_checksum [a, b, x, d] = calculate_response_crc [a, b, x, d]
      · by_cases ha : a = BROADCAST_ADDRESS
        · by_cases hb : b = EXTENDED_FUNCTION_CODE
          · subst ha; subst hb
            by_cases hx3 : x = RESPONSE_SUBCOMMAND
            · subst hx3
              exact absurd hcrc (crc_mismatch_len4 _ d (Or.inl rfl))
            · by_cases hx4 : x = END_SCAN_SUBCOMMAND
              · subst hx4
                exact absurd hcrc (crc_mismatch_len4 _ d (Or.inr rfl))
              · exact Or.inr (process_response_bad_b2 _ c dbg x (by simp) hcrc
                  (by simp) (by simp) (by simp) hx3 hx4)
          · exact Or.inr (process_response_bad_b1 _ c dbg b (by simp) hcrc
              (by simp [ha]) (by simp) hb)
        · exact Or.inr (process_response_bad_b0 _ c dbg a (by simp) hcrc (by simp) ha)
      · exact Or.inl (process_response_crc_mismatch _ c dbg (by simp) hcrc)
    · simp only [List.length_cons] at hlen
      omega

/-- Witness for the amended C4 at the concrete short response `[0x01]`. -/
theorem short_frames_continue_witness :
    process_response [0x01] 7 false =
        some (false, [OutEvent.crcError (bytes_to_hex_array [0x01])], 7) ∨
    process_response [0x01] 7 false = some (false, [OutEvent.unrecognized], 7) :=
  short_frames_continue [0x01] 7 false (by unfold no_ff_bytes; decide) (by decide) (by decide)

/-- C7: a denoised response whose declared checksum matches the computed one
but whose byte 0 is not the broadcast address, or whose byte 1 is not the
extended function code, or whose byte 2 is neither the device-found value
0x03 nor the end-scan value 0x04, is classified as an unrecognized frame: no
device is emitted (the counter is unchanged and the only output is the
diagnostic) and the continue value is returned. -/
theorem unrecognized_frame_continues (r : List Nat) (c : Nat) (dbg : Bool)
    (hff : no_ff_bytes r) (hne : r ≠ [])
    (hcrc : received_checksum r = calculate_response_crc r)
    (hbad : ¬(r[0]? = some BROADCAST_ADDRESS ∧ r[1]? = some EXTENDED_FUNCTION_CODE ∧
      (r[2]? = some RESPONSE_SUBCOMMAND ∨ r[2]? = some END_SCAN_SUBCOMMAND))) :
    process_response r c dbg = some (false, [OutEvent.unrecognized], c) := by
  rcases r with _ | ⟨a, _ | ⟨b, _ | ⟨x, rest⟩⟩⟩
  · exact absurd rfl hne
  · have ha := hff a (by simp)
    exact absurd hcrc (crc_mismatch_len1 a ha.1)
  · have ha := hff a (by simp)
    exact absurd hcrc (crc_mismatch_len2 a b ha.1 ha.2)
  · by_cases ha : a = BROADCAST_ADDRESS
    · by_cases hb : b = EXTENDED_FUNCTION_CODE
      · by_cases hx3 : x = RESPONSE_SUBCOMMAND
        · exact absurd ⟨by simp [ha], by simp [hb], Or.inl (by simp [hx3])⟩ hbad
        · by_cases hx4 : x = END_SCAN_SUBCOMMAND
          · exact absurd ⟨by simp [ha], by simp [hb], Or.inr (by simp [hx4])⟩ hbad
          · exact process_response_bad_b2 _ c dbg x (by simp) hcrc (by simp [ha])
              (by simp [hb]) (by simp) hx3 hx4
      · exact process_response_bad_b1 _ c dbg b (by simp) hcrc (by simp [ha]) (by simp) hb
    · exact process_response_bad_b0 _ c dbg a (by simp) hcrc (by simp) ha

/-- Witness for C7 at the checksum-valid frame `FD 7E C1` (the two trailing
bytes are the little-endian CRC16 of `[0xFD]`, and byte 1 is not 0x46). -/
theorem unrecognized_frame_continues_witness :
    process_response [0xFD, 0x7E, 0xC1] 0 false =
      some (false, [OutEvent.unrecognized], 0) :=
  unrecognized_frame_continues [0xFD, 0x7E, 0xC1] 0 false (by unfold no_ff_bytes; decide)
    (by decide) (by decide) (by decide)

/-- C1 counterexample: a real device-found frame is 10 bytes total, not 8.
This checksum-valid frame has 10 bytes (3 header + 4 serial + 1 address +
2 checksum), which the claim says must be rejected as a malformed device
record, yet the parser accepts it and decodes serial number 300 and bus
address 5. -/
theorem device_record_ten_byte_counterexample :
    ([0xFD, 0x46, 0x03, 0x00, 0x00, 0x01, 0x2C, 0x05, 0x24, 0x22] : List Nat).length = 10 ∧
    process_response [0xFD, 0x46, 0x03, 0x00, 0x00, 0x01, 0x2C, 0x05, 0x24, 0x22] 0 false =
      some (false, [OutEvent.header, OutEvent.row 1 300 5], 1) := ⟨rfl, rfl⟩

/-- C1 amended: for a denoised checksum-valid response with header
0xFD 0x46 0x03, the parser requires exactly 8 bytes before the checksum — a
10-byte frame in total; any other total length is rejected as a malformed
device record (`badSize`).  A 10-byte frame decodes its serial number from
the 4 bytes after the header as a big-endian integer and its bus address
from the following byte, and emits them as a table row. -/
theorem device_record_length_and_decode (r : List Nat) (c : Nat) (dbg : Bool)
    (hff : no_ff_bytes r)
    (hcrc : received_checksum r = calculate_response_crc r)
    (h0 : r[0]? = some BROADCAST_ADDRESS) (h1 : r[1]? = some EXTENDED_FUNCTION_CODE)
    (h2 : r[2]? = some RESPONSE_SUBCOMMAND) :
    (r.length ≠ 10 →
      process_response r c dbg = some (false,
        (if dbg then [OutEvent.deviceDump (bytes_to_hex_array r)] else []) ++
          [OutEvent.badSize], c)) ∧
    (∀ s0 s1 s2 s3 addr c0 c1,
      r = [0xFD, 0x46, 0x03, s0, s1, s2, s3, addr, c0, c1] →
      process_response r c dbg = some (false,
        (if dbg then [OutEvent.deviceDump (bytes_to_hex_array r)] else []) ++
          ((if c + 1 = 1 then [OutEvent.header] else []) ++
            [OutEvent.row (c + 1) (int_from_bytes_be [s0, s1, s2, s3]) addr]), c + 1)) := by
  have hlen5 := device_frame_min_len r hff hcrc h0 h1 h2
  have hne : r ≠ [] := by
    intro h
    rw [h] at hlen5
    simp at hlen5
  have hhex2 : (bytes_to_hex_array r)[2]? = some RESPONSE_SUBCOMMAND := by
    rw [bytes_to_hex_array_getElem r 2 (by omega)]
    exact h2
  constructor
  · intro hlen10
    have hp : parse_and_print_response (bytes_to_hex_array r) c =
        some ([OutEvent.badSize], c) := by
      refine parse_bad_size _ c hhex2 ?_
      rw [bytes_to_hex_array_length]
      omega
    exact process_response_device r c dbg _ _ hne hcrc h0 h1 h2 hp
  · intro s0 s1 s2 s3 addr c0 c1 hr
    have hhex : bytes_to_hex_array r = [0xFD, 0x46, 0x03, s0, s1, s2, s3, addr] := by
      rw [hr]
      rfl
    have hp : parse_and_print_response (bytes_to_hex_array r) c =
        some ((if c + 1 = 1 then [OutEvent.header] else []) ++
          [OutEvent.row (c + 1) (int_from_bytes_be [s0, s1, s2, s3]) addr], c + 1) := by
      rw [hhex]
      exact parse_device 0xFD 0x46 s0 s1 s2 s3 addr c
    exact process_response_device r c dbg _ _ hne hcrc h0 h1 h2 hp

/-- Witness for the amended C1: the canonical 10-byte device frame with
serial bytes `00 00 01 2C` and address byte `05` decodes to serial number
300 and bus address 5, printed as the run's first row (with header). -/
theorem device_record_length_and_decode_witness :
    process_response [0xFD, 0x46, 0x03, 0x00, 0x00, 0x01, 0x2C, 0x05, 0x24, 0x22] 0 false =
      some (false, [OutEvent.header, OutEvent.row 1 300 5], 1) :=
  (device_record_length_and_decode
      [0xFD, 0x46, 0x03, 0x00, 0x00, 0x01, 0x2C, 0x05, 0x24, 0x22] 0 false
      (by unfold no_ff_bytes; decide) (by decide) (by decide) (by decide) (by decide)).2
    0x00 0x00 0x01 0x2C 0x05 0x24 0x22 rfl

/-! ## Sweep lemmas -/

lemma denoise_no_ff (raw : List Nat) (h : ∀ b ∈ raw, b < 256) :
    no_ff_bytes (denoise raw) := by
  intro b hb
  rw [denoise] at hb
  have hmem := List.mem_filter.mp hb
  exact ⟨h b hmem.1, of_decide_eq_true hmem.2⟩

lemma run_session_total (reads : List (List Nat)) (c : Nat) (dbg : Bool)
    (h : ∀ raw ∈ reads, ∀ b ∈ raw, b < 256) :
    ∃ evs c', run_session reads c dbg = some (evs, c') := by
  induction reads generalizing c with
  | nil => exact ⟨_, _, rfl⟩
  | cons raw rest ih =>
    obtain ⟨stop, evs, c', hp⟩ := process_response_some (denoise raw) c dbg
      (denoise_no_ff raw (h raw (by simp)))
    obtain ⟨evs2, c2, hrest⟩ := ih c' (fun x hx => h x (by simp [hx]))
    cases stop
    · refine ⟨evs ++ evs2, c2, ?_⟩
      rw [run_session, hp]
      show (match run_session rest c' dbg with
        | none => none
        | some (evs2, counter2) => some (evs ++ evs2, counter2)) = _
      rw [hrest]
    · exact ⟨evs, c', by rw [run_session, hp]; rfl⟩

lemma tried_rates_cons (e : SweepEvent) (evs : List SweepEvent) :
    tried_rates (e :: evs) =
      (match e with | SweepEvent.tryBaud r => [r] | _ => []) ++ tried_rates evs := by
  cases e <;> simp [tried_rates, List.filterMap_cons]

lemma tried_rates_append (e1 e2 : List SweepEvent) :
    tried_rates (e1 ++ e2) = tried_rates e1 ++ tried_rates e2 := by
  simp [tried_rates]

lemma tried_rates_out_map (evs : List OutEvent) :
    tried_rates (evs.map SweepEvent.out) = [] := by
  induction evs with
  | nil => rfl
  | cons e t ih => simpa [tried_rates_cons] using ih

lemma main_sweep_total (rates : List Nat) (envs : Nat → BaudEnv) (dbg : Bool) (c : Nat)
    (h : ∀ rate ∈ rates, byte_reads (envs rate)) :
    ∃ evs c', main_sweep envs dbg c rates = some (evs, c') ∧
      tried_rates evs = rates ∧
      ∀ rate ∈ rates, (envs rate).openOk = false → SweepEvent.openError rate ∈ evs := by
  induction rates generalizing c with
  | nil => exact ⟨[], c, rfl, rfl, by simp⟩
  | cons rate rest ih =>
    obtain ⟨evs1, c1, hm, htr, herr⟩ := ih c (fun x hx => h x (by simp [hx]))
    by_cases hopen : (envs rate).openOk
    · obtain ⟨evs0, c0, hs⟩ := run_session_total (envs rate).reads c dbg (h rate (by simp))
      obtain ⟨evs1', c1', hm', htr', herr'⟩ := ih c0 (fun x hx => h x (by simp [hx]))
      refine ⟨(SweepEvent.tryBaud rate :: evs0.map SweepEvent.out) ++ evs1', c1', ?_, ?_, ?_⟩
      · rw [main_sweep, scan_baud, if_pos hopen, hs]
        simp only
        rw [hm']
      · rw [tried_rates_append, tried_rates_cons]
        simp only
        rw [tried_rates_out_map, htr']
        rfl
      · intro r hr hro
        rcases List.mem_cons.mp hr with rfl | hr'
        · rw [hro] at hopen
          simp at hopen
        · exact List.mem_append_right _ (herr' r hr' hro)
    · refine ⟨[SweepEvent.tryBaud rate, SweepEvent.openError rate] ++ evs1, c1, ?_, ?_, ?_⟩
      · rw [main_sweep, scan_baud, if_neg hopen]
        simp only
        rw [hm]
      · rw [tried_rates_append, tried_rates_cons]
        simp only
        rw [htr]
        rfl
      · intro r hr hro
        rcases List.mem_cons.mp hr with rfl | hr'
        · exact List.mem_append_left _ (by simp)
        · exact List.mem_append_right _ (herr r hr' hro)

/-- C8: the sweep of `main` attempts every baud rate in the fixed list
exactly once per run, in the list's strictly descending order, with no early
termination across rates: the announced rates of the sweep trace are exactly
`BAUD_RATES`, whatever each rate's outcome; when opening the transport at a
rate fails, that rate's failure is reported (`openError`) and the sweep
still reaches all remaining rates. -/
theorem sweep_attempts_every_rate (envs : Nat → BaudEnv) (dbg : Bool) (c : Nat)
    (h : ∀ rate ∈ BAUD_RATES, byte_reads (envs rate)) :
    (∃ evs c', main_sweep envs dbg c BAUD_RATES = some (evs, c') ∧
      tried_rates evs = BAUD_RATES ∧
      ∀ rate ∈ BAUD_RATES, (envs rate).openOk = false →
        SweepEvent.openError rate ∈ evs) ∧
    List.Chain' (fun a b => a > b) BAUD_RATES :=
  ⟨main_sweep_total BAUD_RATES envs dbg c h, by simp [BAUD_RATES, List.chain'_cons]⟩

/-- Witness for C8: a run in which no port can be opened at any rate. -/
theorem sweep_attempts_every_rate_witness :
    (∃ evs c', main_sweep (fun _ => BaudEnv.mk false []) false 0 BAUD_RATES =
        some (evs, c') ∧
      tried_rates evs = BAUD_RATES ∧
      ∀ rate ∈ BAUD_RATES, ((fun _ => BaudEnv.mk false []) rate).openOk = false →
        SweepEvent.openError rate ∈ evs) ∧
    List.Chain' (fun a b => a > b) BAUD_RATES :=
  sweep_attempts_every_rate (fun _ => BaudEnv.mk false []) false 0
    (by intro rate hr raw hraw; simp at hraw)

/-! ## Reporter trace lemmas -/

lemma row_seqs_append (e1 e2 : List OutEvent) :
    row_seqs (e1 ++ e2) = row_seqs e1 ++ row_seqs e2 := by
  simp [row_seqs]

lemma header_count_append (e1 e2 : List OutEvent) :
    header_count (e1 ++ e2) = header_count e1 + header_count e2 := by
  simp [header_count]

lemma out_events_append (e1 e2 : List SweepEvent) :
    out_events (e1 ++ e2) = out_events e1 ++ out_events e2 := by
  simp [out_events]

lemma out_events_map (evs : List OutEvent) :
    out_events (evs.map SweepEvent.out) = evs := by
  induction evs with
  | nil => rfl
  | cons e t ih =>
    simp only [List.map_cons, out_events, List.filterMap_cons] at *
    rw [ih]

lemma ReporterTrace_refl (c : Nat) (evs : List OutEvent) (hclean : clean_events evs) :
    ReporterTrace c evs c := by
  refine ⟨le_refl c, ?_, ?_, ?_⟩
  · rw [hclean.1]
    simp
  · rw [hclean.2, if_neg (by omega)]
  · intro _ h
    omega

lemma ReporterTrace_single_diag (c : Nat) (e : OutEvent)
    (hrow : seq_of_event e = none) (hhead : is_header_event e = false) :
    ReporterTrace c [e] c := by
  refine ReporterTrace_refl c [e] ⟨?_, ?_⟩
  · simp [row_seqs, List.filterMap_cons, hrow]
  · simp [header_count, List.countP_cons, hhead]

lemma ReporterTrace_comp (c c' c'' : Nat) (e1 e2 : List OutEvent)
    (t1 : ReporterTrace c e1 c') (t2 : ReporterTrace c' e2 c'') :
    ReporterTrace c (e1 ++ e2) c'' := by
  obtain ⟨hle1, hrows1, hhc1, hpl1⟩ := t1
  obtain ⟨hle2, hrows2, hhc2, hpl2⟩ := t2
  refine ⟨le_trans hle1 hle2, ?_, ?_, ?_⟩
  · rw [row_seqs_append, hrows1, hrows2]
    have h1 : c' + 1 = c + 1 + 1 * (c' - c) := by omega
    have h2 : c'' - c = c'' - c' + (c' - c) := by omega
    rw [h1, h2]
    exact List.range'_append (c + 1) (c' - c) (c'' - c') 1
  · rw [header_count_append, hhc1, hhc2]
    by_cases hc : c = 0
    · subst hc
      by_cases hc' : c' = 0
      · subst hc'
        simp
      · rw [if_pos ⟨rfl, by omega⟩, if_neg (by omega), if_pos ⟨rfl, by omega⟩]
    · rw [if_neg (by omega), if_neg (by omega), if_neg (by omega)]
  · intro hc h0
    subst hc
    by_cases hc' : 0 < c'
    · obtain ⟨pre, s, a, post, heq, hpre, hpost⟩ := hpl1 rfl hc'
      refine ⟨pre, s, a, post ++ e2, by rw [heq]; simp, hpre, ?_⟩
      rw [header_count_append, hpost, hhc2, if_neg (by omega)]
    · have hc'0 : c' = 0 := by omega
      subst hc'0
      obtain ⟨pre, s, a, post, heq, hpre, hpost⟩ := hpl2 rfl h0
      refine ⟨e1 ++ pre, s, a, post, by rw [heq]; simp, ⟨?_, ?_⟩, hpost⟩
      · rw [row_seqs_append, hrows1, hpre.1]
        simp
      · rw [header_count_append, hhc1, hpre.2, if_neg (by omega)]

lemma parse_device_general (h : List Nat) (c : Nat)
    (h2 : h[2]? = some RESPONSE_SUBCOMMAND) (hlen : h.length = 8) :
    parse_and_print_response h c =
      some ((if c + 1 = 1 then [OutEvent.header] else []) ++
        [OutEvent.row (c + 1) (int_from_bytes_be ((h.drop 3).take 4)) (h.getD 7 0)],
        c + 1) := by
  rw [parse_and_print_response, h2]
  simp only
  rw [if_neg (by simp), if_neg (by simp [hlen])]

lemma parse_trace (h : List Nat) (c : Nat) (evs : List OutEvent) (c' : Nat)
    (hp : parse_and_print_response h c = some (evs, c')) :
    ReporterTrace c evs c' := by
  rcases h2 : h[2]? with _ | b2
  · rw [parse_and_print_response, h2] at hp
    simp at hp
  · by_cases hb : b2 = RESPONSE_SUBCOMMAND
    · subst hb
      by_cases hlen : h.length = 8
      · rw [parse_device_general h c h2 hlen] at hp
        simp only [Option.some.injEq, Prod.mk.injEq] at hp
        obtain ⟨h1, h2'⟩ := hp
        subst h1; subst h2'
        refine ⟨Nat.le_succ c, ?_, ?_, ?_⟩
        · rw [row_seqs_append]
          by_cases hc : c = 0
          · subst hc
            rw [if_pos rfl]
            simp only [row_seqs, List.filterMap_cons, List.filterMap_nil, seq_of_event]
            rw [show 0 + 1 - 0 = 1 by omega, List.range'_one]
            rfl
          · rw [if_neg (by omega)]
            simp only [row_seqs, List.filterMap_cons, List.filterMap_nil, seq_of_event]
            rw [show c + 1 - c = 1 by omega, List.range'_one]
            rfl
        · by_cases hc : c = 0
          · subst hc
            rw [if_pos rfl, if_pos ⟨rfl, by omega⟩]
            rfl
          · rw [if_neg (by omega), if_neg (by omega)]
            rfl
        · intro hc h0
          subst hc
          rw [if_pos rfl]
          exact ⟨[], _, _, [], rfl, ⟨rfl, rfl⟩, rfl⟩
      · rw [parse_bad_size h c h2 hlen] at hp
        simp only [Option.some.injEq, Prod.mk.injEq] at hp
        obtain ⟨h1, h2'⟩ := hp
        subst h1; subst h2'
        exact ReporterTrace_single_diag c _ rfl rfl
    · rw [parse_bad_b2 h c b2 h2 hb] at hp
      simp only [Option.some.injEq, Prod.mk.injEq] at hp
      obtain ⟨h1, h2'⟩ := hp
      subst h1; subst h2'
      exact ReporterTrace_single_diag c _ rfl rfl

lemma ReporterTrace_debug_dump (c : Nat) (dbg : Bool) (payload : List Nat) :
    ReporterTrace c (if dbg then [OutEvent.deviceDump payload] else []) c := by
  cases dbg
  · exact ReporterTrace_refl c [] ⟨rfl, rfl⟩
  · exact ReporterTrace_single_diag c _ rfl rfl

lemma process_trace (r : List Nat) (c : Nat) (dbg : Bool) (stop : Bool)
    (evs : List OutEvent) (c' : Nat)
    (hp : process_response r c dbg = some (stop, evs, c')) :
    ReporterTrace c evs c' := by
  rw [process_response] at hp
  by_cases hlen : r.length = 0
  · rw [if_pos hlen] at hp
    simp only [Option.some.injEq, Prod.mk.injEq] at hp
    obtain ⟨-, h1, h2⟩ := hp
    subst h1; subst h2
    exact ReporterTrace_single_diag c _ rfl rfl
  · rw [if_neg hlen] at hp
    simp only at hp
    by_cases hcrc : received_checksum r ≠ calculate_response_crc r
    · rw [if_pos hcrc] at hp
      simp only [Option.some.injEq, Prod.mk.injEq] at hp
      obtain ⟨-, h1, h2⟩ := hp
      subst h1; subst h2
      exact ReporterTrace_single_diag c _ rfl rfl
    · rw [if_neg hcrc] at hp
      rcases h0 : r[0]? with _ | b0 <;> rw [h0] at hp
      · simp at hp
      · simp only at hp
        by_cases hb0 : b0 ≠ BROADCAST_ADDRESS
        · rw [if_pos hb0] at hp
          simp only [Option.some.injEq, Prod.mk.injEq] at hp
          obtain ⟨-, h1, h2⟩ := hp
          subst h1; subst h2
          exact ReporterTrace_single_diag c _ rfl rfl
        · rw [if_neg hb0] at hp
          rcases h1 : r[1]? with _ | b1 <;> rw [h1] at hp
          · simp at hp
          · simp only at hp
            by_cases hb1 : b1 ≠ EXTENDED_FUNCTION_CODE
            · rw [if_pos hb1] at hp
              simp only [Option.some.injEq, Prod.mk.injEq] at hp
              obtain ⟨-, he, hc2⟩ := hp
              subst he; subst hc2
              exact ReporterTrace_single_diag c _ rfl rfl
            · rw [if_neg hb1] at hp
              rcases h2 : r[2]? with _ | b2 <;> rw [h2] at hp
              · simp at hp
              · simp only at hp
                by_cases hb2e : b2 = END_SCAN_SUBCOMMAND
                · rw [if_pos hb2e] at hp
                  simp only [Option.some.injEq, Prod.mk.injEq] at hp
                  obtain ⟨-, he, hc2⟩ := hp
                  subst he; subst hc2
                  exact ReporterTrace_single_diag c _ rfl rfl
                · rw [if_neg hb2e] at hp
                  by_cases hb2r : b2 = RESPONSE_SUBCOMMAND
                  · rw [if_pos hb2r] at hp
                    rcases hpp : parse_and_print_response (bytes_to_hex_array r) c
                        with _ | ⟨evs0, c0⟩ <;> rw [hpp] at hp
                    · simp at hp
                    · simp only [Option.some.injEq, Prod.mk.injEq] at hp
                      obtain ⟨-, he, hc2⟩ := hp
                      subst he; subst hc2
                      exact ReporterTrace_comp c c c0 _ _
                        (ReporterTrace_debug_dump c dbg _) (parse_trace _ _ _ _ hpp)
                  · rw [if_neg hb2r] at hp
                    simp only [Option.some.injEq, Prod.mk.injEq] at hp
                    obtain ⟨-, he, hc2⟩ := hp
                    subst he; subst hc2
                    exact ReporterTrace_single_diag c _ rfl rfl

lemma run_session_trace (reads : List (List Nat)) (c : Nat) (dbg : Bool)
    (evs : List OutEvent) (c' : Nat)
    (hs : run_session reads c dbg = some (evs, c')) :
    ReporterTrace c evs c' := by
  induction reads generalizing c evs c' with
  | nil =>
    rw [run_session] at hs
    rcases hp : process_response (denoise []) c dbg with _ | ⟨b, evs0, c0⟩ <;> rw [hp] at hs
    · simp at hs
    · simp only [Option.some.injEq, Prod.mk.injEq] at hs
      obtain ⟨h1, h2⟩ := hs
      subst h1; subst h2
      exact process_trace _ _ _ _ _ _ hp
  | cons raw rest ih =>
    rw [run_session] at hs
    rcases hp : process_response (denoise raw) c dbg with _ | ⟨b, evs0, c0⟩ <;> rw [hp] at hs
    · simp at hs
    · simp only at hs
      cases b
      · rw [if_neg (by simp)] at hs
        rcases hrest : run_session rest c0 dbg with _ | ⟨evs1, c1⟩ <;> rw [hrest] at hs
        · simp at hs
        · simp only [Option.some.injEq, Prod.mk.injEq] at hs
          obtain ⟨h1, h2⟩ := hs
          subst h1; subst h2
          exact ReporterTrace_comp c c0 c1 _ _
            (process_trace _ _ _ _ _ _ hp) (ih _ _ _ hrest)
      · rw [if_pos rfl] at hs
        simp only [Option.some.injEq, Prod.mk.injEq] at hs
        obtain ⟨h1, h2⟩ := hs
        subst h1; subst h2
        exact process_trace _ _ _ _ _ _ hp

lemma scan_baud_trace (env : BaudEnv) (rate c : Nat) (dbg : Bool)
    (evs : List SweepEvent) (c' : Nat)
    (hs : scan_baud env rate c dbg = some (evs, c')) :
    ReporterTrace c (out_events evs) c' := by
  rw [scan_baud] at hs
  by_cases hopen : env.openOk
  · rw [if_pos hopen] at hs
    rcases hr : run_session env.reads c dbg with _ | ⟨evs0, c0⟩ <;> rw [hr] at hs
    · simp at hs
    · simp only [Option.some.injEq, Prod.mk.injEq] at hs
      obtain ⟨h1, h2⟩ := hs
      subst h1; subst h2
      have hout : out_events (SweepEvent.tryBaud rate :: evs0.map SweepEvent.out) = evs0 := by
        simp only [out_events, List.filterMap_cons]
        exact out_events_map evs0
      rw [hout]
      exact run_session_trace _ _ _ _ _ hr
  · rw [if_neg hopen] at hs
    simp only [Option.some.injEq, Prod.mk.injEq] at hs
    obtain ⟨h1, h2⟩ := hs
    subst h1; subst h2
    exact ReporterTrace_refl c _ ⟨rfl, rfl⟩

lemma main_sweep_trace (rates : List Nat) (envs : Nat → BaudEnv) (dbg : Bool)
    (c : Nat) (evs : List SweepEvent) (c' : Nat)
    (hs : main_sweep envs dbg c rates = some (evs, c')) :
    ReporterTrace c (out_events evs) c' := by
  induction rates generalizing c evs c' with
  | nil =>
    rw [main_sweep] at hs
    simp only [Option.some.injEq, Prod.mk.injEq] at hs
    obtain ⟨h1, h2⟩ := hs
    subst h1; subst h2
    exact ReporterTrace_refl c _ ⟨rfl, rfl⟩
  | cons rate rest ih =>
    rw [main_sweep] at hs
    rcases hb : scan_baud (envs rate) rate c dbg with _ | ⟨evs0, c0⟩ <;> rw [hb] at hs
    · simp at hs
    · simp only at hs
      rcases hm : main_sweep envs dbg c0 rest with _ | ⟨evs1, c1⟩ <;> rw [hm] at hs
      · simp at hs
      · simp only [Option.some.injEq, Prod.mk.injEq] at hs
        obtain ⟨h1, h2⟩ := hs
        subst h1; subst h2
        rw [out_events_append]
        exact ReporterTrace_comp c c0 c1 _ _
          (scan_baud_trace _ _ _ _ _ _ hb) (ih _ _ _ hm)

/-- C9: across an entire run (the reporter counter starts at 0 and is
threaded through every baud rate, never reset), the table rows carry the
sequence numbers 1, 2, 3, …, k in order, where k is the final counter value;
the header is printed exactly once when at least one row is printed (and
never otherwise), and it immediately precedes the row numbered 1, with only
non-table diagnostics before it and no further header after it. -/
theorem reporter_numbering (envs : Nat → BaudEnv) (dbg : Bool)
    (evs : List SweepEvent) (k : Nat)
    (h : main_sweep envs dbg 0 BAUD_RATES = some (evs, k)) :
    row_seqs (out_events evs) = List.range' 1 k ∧
    header_count (out_events evs) = (if 0 < k then 1 else 0) ∧
    (0 < k → ∃ pre s a post,
      out_events evs = pre ++ OutEvent.header :: OutEvent.row 1 s a :: post ∧
      clean_events pre ∧ header_count post = 0) := by
  obtain ⟨hle, hrows, hhc, hpl⟩ := main_sweep_trace BAUD_RATES envs dbg 0 evs k h
  refine ⟨by simpa using hrows, ?_, fun hk => hpl rfl hk⟩
  rw [hhc]
  simp

/-- Witness for C9: a run that opens only at 9600 baud and finds one device
there; its single row is numbered 1 and the header precedes it. -/
theorem reporter_numbering_witness :
    row_seqs (out_events demo_trace) = List.range' 1 1 ∧
    header_count (out_events demo_trace) = (if 0 < 1 then 1 else 0) ∧
    (0 < 1 → ∃ pre s a post,
      out_events demo_trace = pre ++ OutEvent.header :: OutEvent.row 1 s a :: post ∧
      clean_events pre ∧ header_count post = 0) :=
  reporter_numbering demo_envs false demo_trace 1 (by decide)

end Scanner
